import Mathlib

/-!
Shallow embedding of `src/generals.rs` (martinhath/generals): the cell and
board data model, the growth phase and the move-resolution phase of
`GameState::tick`, together with theorems checking the specification's
claims about them.

Modelling conventions.  Rust `usize` values are modelled as `Nat`.
Operations of the source that can abort the program — indexing out of grid
bounds, `take_units`/`give_units` on a `Mountain`/`Open` cell (an explicit
abort in the source), and unsigned subtractions that would underflow (which
abort in checked Rust builds; this is also the convention of Rust
verification frameworks) — are modelled as `Option`-valued functions
returning `none` at the aborting input.  Grid coordinates are `Int`
(`i32` in the source); a negative coordinate cast to `usize` in the source
indexes far out of bounds and aborts, so access at a negative coordinate is
also `none`.
-/

namespace Generals

abbrev Team := Nat

inductive Cell where
  | Mountain : Cell
  | Open : Cell
  | Fortress (owner : Option Team) (n : Nat) : Cell
  | King (team : Team) (n : Nat) : Cell
  | Captured (team : Team) (n : Nat) : Cell
  deriving DecidableEq

inductive Direction where
  | Up : Direction
  | Down : Direction
  | Left : Direction
  | Right : Direction
  deriving DecidableEq

structure Position where
  x : Int
  y : Int
  deriving DecidableEq

/-- A movement, from a position in a direction. -/
abbrev Move := Position × Direction

structure PlayerState where
  moves : List Move
  dead : Bool
  team : Team
  deriving DecidableEq

structure Board where
  cells : List (List Cell)
  deriving DecidableEq

structure GameState where
  board : Board
  tick_number : Nat
  num_players : Nat
  player_states : List PlayerState
  dimens : Int × Int
  deriving DecidableEq

/-- `Cell::is_controlled_by`: true iff the cell is a Fortress with a `Some`
owner, a King, or a Captured cell whose team equals `team`. -/
def Cell.is_controlled_by (c : Cell) (team : Team) : Bool :=
  match c with
  | .Fortress (some t) _ => team == t
  | .King t _ => team == t
  | .Captured t _ => team == t
  | _ => false

/-- `Cell::take_units`: on a unit-bearing cell of count `n` it computes
`n - 1`, resets the cell's count to `1`, and returns the difference.  On
`Mountain`/`Open` the source aborts (`none`); at `n = 0` the source's
`num - 1` underflows `usize`, also modelled as `none`. -/
def Cell.take_units : Cell → Option (Nat × Cell)
  | .Fortress o n => if n = 0 then none else some (n - 1, .Fortress o 1)
  | .King t n => if n = 0 then none else some (n - 1, .King t 1)
  | .Captured t n => if n = 0 then none else some (n - 1, .Captured t 1)
  | _ => none

/-- `Cell::give_units`: adds `num` to a unit-bearing cell's count; on
`Mountain`/`Open` the source aborts (`none`). -/
def Cell.give_units : Cell → Nat → Option Cell
  | .Fortress o n, num => some (.Fortress o (n + num))
  | .King t n, num => some (.King t (n + num))
  | .Captured t n, num => some (.Captured t (n + num))
  | _, _ => none

/-- `Cell::take_units` followed immediately by `Cell::give_units` of the
returned amount (the round-trip of the spec's §8 first property). -/
def Cell.take_then_give (c : Cell) : Option Cell :=
  match c.take_units with
  | none => none
  | some (u, c1) => c1.give_units u

/-- The unit count carried by a cell (`none` for `Mountain`/`Open`). -/
def Cell.unitCount : Cell → Option Nat
  | .Fortress _ n => some n
  | .King _ n => some n
  | .Captured _ n => some n
  | _ => none

/-- `Board::get` / `Board::get_mut` read access: `self.cells[y][x]`, with
`none` in place of the source's out-of-bounds abort. -/
def Board.getCell (b : Board) (x y : Int) : Option Cell :=
  if 0 ≤ x ∧ 0 ≤ y then
    match b.cells[y.toNat]? with
    | some row => row[x.toNat]?
    | none => none
  else none

/-- Writing through `Board::get_mut`: replace the cell at `(x, y)`.  Out of
bounds the source aborts; the callers below only write in bounds, so the
out-of-bounds case is left as the identity. -/
def Board.setCell (b : Board) (x y : Int) (c : Cell) : Board :=
  if 0 ≤ x ∧ 0 ≤ y then
    match b.cells[y.toNat]? with
    | some row => ⟨b.cells.set y.toNat (row.set x.toNat c)⟩
    | none => b
  else b

/-- `Direction::to_xy`. -/
def Direction.to_xy : Direction → Int × Int
  | .Up => (0, -1)
  | .Down => (0, 1)
  | .Left => (-1, 0)
  | .Right => (1, 0)

/-- The per-cell growth step of `GameState::tick`: `update_tick` is the fast
clock (`tick_number % 2 == 0`), `update_all` the slow clock
(`tick_number % 32 == 0`).  Fortresses with a `Some` owner and Kings grow on
the fast clock; Captured cells grow when the slow clock fires and then only
if the fast clock also fires; everything else is untouched. -/
def growCell (update_tick update_all : Bool) : Cell → Cell
  | .Fortress (some o) n =>
      if update_tick then .Fortress (some o) (n + 1) else .Fortress (some o) n
  | .King t n => if update_tick then .King t (n + 1) else .King t n
  | .Captured t n =>
      if update_all then
        (if update_tick then .Captured t (n + 1) else .Captured t n)
      else .Captured t n
  | c => c

/-- The growth phase of `GameState::tick` at (already incremented) tick
counter `tn`, applied to the whole board. -/
def growBoard (tn : Nat) (b : Board) : Board :=
  ⟨b.cells.map (fun row => row.map (growCell (tn % 2 == 0) (tn % 32 == 0)))⟩

/-- `k` consecutive growth phases starting with tick counter `tn` (the first
of them runs at counter `tn + 1`, as `tick` increments before growing). -/
def growIter (b : Board) (tn : Nat) : Nat → Board
  | 0 => b
  | k + 1 => growIter (growBoard (tn + 1) b) (tn + 1) k

/-- One iteration of the move-resolution loop body of `GameState::tick` for a
single player: pop the front move (if any), drain the source cell, and
resolve against the target cell.  Returns the updated board, the updated
player state and the `break` flag of the Mountain branch; `none` models the
aborts (bad coordinates, draining a `Mountain`/`Open` source, and the
`usize` underflow of `units -= *n - 1` when a King with count `0` falls). -/
def resolvePlayer (board : Board) (ps : PlayerState) :
    Option (Board × PlayerState × Bool) :=
  match ps.moves with
  | [] => some (board, ps, false)
  | (p, dir) :: rest =>
    match board.getCell p.x p.y with
    | none => none
    | some src =>
      match src.take_units with
      | none => none
      | some (units, src1) =>
        let board1 := board.setCell p.x p.y src1
        if units = 0 then
          some (board1, { ps with moves := [] }, false)
        else
          match board1.getCell (p.x + dir.to_xy.1) (p.y + dir.to_xy.2) with
          | none => none
          | some tgt =>
            if tgt.is_controlled_by ps.team then
              match tgt.give_units units with
              | none => none
              | some tgt1 =>
                some (board1.setCell (p.x + dir.to_xy.1) (p.y + dir.to_xy.2) tgt1,
                      { ps with moves := rest }, false)
            else
              match tgt with
              | .Mountain =>
                match (board1.getCell p.x p.y).bind (fun c => c.give_units units) with
                | none => none
                | some src2 =>
                  some (board1.setCell p.x p.y src2, { ps with moves := [] }, true)
              | .Open =>
                some (board1.setCell (p.x + dir.to_xy.1) (p.y + dir.to_xy.2)
                        (.Captured ps.team units),
                      { ps with moves := rest }, false)
              | .Captured t n =>
                some (board1.setCell (p.x + dir.to_xy.1) (p.y + dir.to_xy.2)
                        (if units ≤ n then .Captured t (n - units)
                         else .Captured ps.team (units - n)),
                      { ps with moves := rest }, false)
              | .Fortress (some t) n =>
                some (board1.setCell (p.x + dir.to_xy.1) (p.y + dir.to_xy.2)
                        (if units ≤ n then .Fortress (some t) (n - units)
                         else .Fortress (some ps.team) (units - n)),
                      { ps with moves := rest }, false)
              | .King t n =>
                if units ≤ n then
                  some (board1.setCell (p.x + dir.to_xy.1) (p.y + dir.to_xy.2)
                          (.King t (n - units)),
                        { ps with moves := rest }, false)
                else if n = 0 then
                  none
                else
                  some (board1.setCell (p.x + dir.to_xy.1) (p.y + dir.to_xy.2)
                          (.Fortress (some ps.team) (units - (n - 1))),
                        { ps with moves := rest }, false)
              | .Fortress none n =>
                some (board1.setCell (p.x + dir.to_xy.1) (p.y + dir.to_xy.2)
                        (if units ≤ n then .Fortress none (n - units)
                         else .Fortress (some ps.team) (units - n)),
                      { ps with moves := rest }, false)

/-- The move-resolution loop of `GameState::tick`: players are processed in
team-index (vector) order; the Mountain branch's `break` stops the whole
loop.  The returned `Bool` records whether a `break` occurred. -/
def resolveMoves : Board → List PlayerState → Option (Board × List PlayerState × Bool)
  | board, [] => some (board, [], false)
  | board, ps :: rest =>
    match resolvePlayer board ps with
    | none => none
    | some (b1, ps1, brk) =>
      if brk then
        some (b1, ps1 :: rest, true)
      else
        match resolveMoves b1 rest with
        | none => none
        | some (b2, rest1, brk2) => some (b2, ps1 :: rest1, brk2)

/-- `GameState::tick`: increment the tick counter, run the growth phase,
then the move-resolution loop. -/
def GameState.tick (s : GameState) : Option GameState :=
  match resolveMoves (growBoard (s.tick_number + 1) s.board) s.player_states with
  | none => none
  | some (b, players, _) =>
    some { s with tick_number := s.tick_number + 1, board := b,
                  player_states := players }

/-! Helper lemmas about list and board access. -/

theorem list_set_self {α : Type} :
    ∀ (l : List α) (i : Nat) (a : α), l[i]? = some a → l.set i a = l
  | [], i, a, h => by simp at h
  | x :: xs, 0, a, h => by
      simp only [List.getElem?_cons_zero, Option.some.injEq] at h
      simp [h]
  | x :: xs, i + 1, a, h => by
      simp only [List.getElem?_cons_succ] at h
      simp [List.set, list_set_self xs i a h]

theorem getCell_setCell_self {b : Board} {x y : Int} {c0 c : Cell}
    (h : b.getCell x y = some c0) : (b.setCell x y c).getCell x y = some c := by
  unfold Board.getCell Board.setCell at *
  by_cases hxy : 0 ≤ x ∧ 0 ≤ y
  · simp only [hxy, if_true] at h ⊢
    cases hrow : b.cells[y.toNat]? with
    | none => rw [hrow] at h; exact absurd h (by simp)
    | some row =>
        rw [hrow] at h
        have hx : x.toNat < row.length := (List.getElem?_eq_some_iff.mp h).1
        have hy : y.toNat < b.cells.length := (List.getElem?_eq_some_iff.mp hrow).1
        simp [List.getElem?_set_self hy, List.getElem?_set_self hx]
  · rw [if_neg hxy] at h; exact absurd h (by simp)

theorem getCell_setCell_ne {b : Board} {x y x' y' : Int} {c : Cell}
    (hne : x ≠ x' ∨ y ≠ y') :
    (b.setCell x y c).getCell x' y' = b.getCell x' y' := by
  unfold Board.getCell Board.setCell
  by_cases hxy : 0 ≤ x ∧ 0 ≤ y
  · simp only [hxy, if_true]
    cases hrow : b.cells[y.toNat]? with
    | none => simp
    | some row =>
        by_cases hxy' : 0 ≤ x' ∧ 0 ≤ y'
        · simp only [hxy', if_true]
          by_cases hyy : y.toNat = y'.toNat
          · have hy' : y = y' := by omega
            subst hy'
            have hx : x.toNat ≠ x'.toNat := by
              rcases hne with h | h
              · omega
              · exact absurd rfl h
            have hy : y.toNat < b.cells.length := (List.getElem?_eq_some_iff.mp hrow).1
            simp [List.getElem?_set_self hy, hrow, List.getElem?_set_ne hx]
          · simp [List.getElem?_set_ne hyy]
        · simp [hxy']
  · rw [if_neg hxy]

/-- If `take_units` hands back `0` units, the source cell held exactly one
unit and is left unchanged. -/
theorem take_units_zero {c c' : Cell} (h : c.take_units = some (0, c')) :
    c' = c ∧ c.unitCount = some 1 := by
  cases c with
  | Mountain => exact absurd h (by simp [Cell.take_units])
  | Open => exact absurd h (by simp [Cell.take_units])
  | Fortress o n =>
      simp only [Cell.take_units] at h
      split at h
      · exact absurd h (by simp)
      · rename_i hn
        simp only [Option.some.injEq, Prod.mk.injEq] at h
        obtain ⟨h1, h2⟩ := h
        have hn1 : n = 1 := by omega
        subst hn1
        exact ⟨h2.symm, rfl⟩
  | King t n =>
      simp only [Cell.take_units] at h
      split at h
      · exact absurd h (by simp)
      · rename_i hn
        simp only [Option.some.injEq, Prod.mk.injEq] at h
        obtain ⟨h1, h2⟩ := h
        have hn1 : n = 1 := by omega
        subst hn1
        exact ⟨h2.symm, rfl⟩
  | Captured t n =>
      simp only [Cell.take_units] at h
      split at h
      · exact absurd h (by simp)
      · rename_i hn
        simp only [Option.some.injEq, Prod.mk.injEq] at h
        obtain ⟨h1, h2⟩ := h
        have hn1 : n = 1 := by omega
        subst hn1
        exact ⟨h2.symm, rfl⟩

/-- Giving back what `take_units` took restores the original cell exactly. -/
theorem give_units_take_units {c : Cell} {u : Nat} {c1 : Cell}
    (h : c.take_units = some (u, c1)) : c1.give_units u = some c := by
  cases c with
  | Mountain => exact absurd h (by simp [Cell.take_units])
  | Open => exact absurd h (by simp [Cell.take_units])
  | Fortress o n =>
      simp only [Cell.take_units] at h
      split at h
      · exact absurd h (by simp)
      · rename_i hn
        simp only [Option.some.injEq, Prod.mk.injEq] at h
        obtain ⟨h1, h2⟩ := h
        subst h1
        simp only [← h2, Cell.give_units, Option.some.injEq, Cell.Fortress.injEq]
        exact ⟨by trivial, by omega⟩
  | King t n =>
      simp only [Cell.take_units] at h
      split at h
      · exact absurd h (by simp)
      · rename_i hn
        simp only [Option.some.injEq, Prod.mk.injEq] at h
        obtain ⟨h1, h2⟩ := h
        subst h1
        simp only [← h2, Cell.give_units, Option.some.injEq, Cell.King.injEq]
        exact ⟨by trivial, by omega⟩
  | Captured t n =>
      simp only [Cell.take_units] at h
      split at h
      · exact absurd h (by simp)
      · rename_i hn
        simp only [Option.some.injEq, Prod.mk.injEq] at h
        obtain ⟨h1, h2⟩ := h
        subst h1
        simp only [← h2, Cell.give_units, Option.some.injEq, Cell.Captured.injEq]
        exact ⟨by trivial, by omega⟩

/-- Moving in any direction changes at least one coordinate. -/
theorem to_xy_moves (dir : Direction) (x y : Int) :
    x + dir.to_xy.1 ≠ x ∨ y + dir.to_xy.2 ≠ y := by
  cases dir <;> simp [Direction.to_xy]

/-! Growth-phase lemmas. -/

/-- `k` consecutive growth steps of a single cell, starting with tick
counter `tn` (the first step runs at counter `tn + 1`). -/
def growCellIter (c : Cell) (tn : Nat) : Nat → Cell
  | 0 => c
  | k + 1 => growCellIter (growCell ((tn + 1) % 2 == 0) ((tn + 1) % 32 == 0) c) (tn + 1) k

theorem getCell_growBoard {b : Board} {tn : Nat} {x y : Int} :
    (growBoard tn b).getCell x y
      = (b.getCell x y).map (growCell (tn % 2 == 0) (tn % 32 == 0)) := by
  unfold Board.getCell growBoard
  by_cases hxy : 0 ≤ x ∧ 0 ≤ y
  · simp only [hxy, if_true, List.getElem?_map]
    cases hrow : b.cells[y.toNat]? with
    | none => simp
    | some row => simp [List.getElem?_map]
  · simp [hxy]

theorem getCell_growIter {b : Board} {tn : Nat} {x y : Int} : ∀ k : Nat,
    (growIter b tn k).getCell x y
      = (b.getCell x y).map (fun c => growCellIter c tn k) := by
  intro k
  induction k generalizing b tn with
  | zero =>
      cases h : b.getCell x y <;> simp [growIter, growCellIter, h]
  | succ k ih =>
      show (growIter (growBoard (tn + 1) b) (tn + 1) k).getCell x y = _
      rw [ih, getCell_growBoard]
      cases h : b.getCell x y <;> simp [growCellIter, h]

theorem growCellIter_King (t : Team) (k : Nat) : ∀ (tn n : Nat),
    growCellIter (.King t n) tn k = .King t (n + ((tn + k) / 2 - tn / 2)) := by
  induction k with
  | zero => intro tn n; simp [growCellIter]
  | succ k ih =>
      intro tn n
      show growCellIter (growCell ((tn + 1) % 2 == 0) ((tn + 1) % 32 == 0) (.King t n)) (tn + 1) k = _
      by_cases h2 : (tn + 1) % 2 = 0
      · simp only [growCell, h2, beq_self_eq_true, if_true, ih]
        simp only [Cell.King.injEq]
        exact ⟨by trivial, by omega⟩
      · have hb : ((tn + 1) % 2 == 0) = false := by simp [h2]
        simp only [growCell, hb, Bool.false_eq_true, if_false, ih]
        simp only [Cell.King.injEq]
        exact ⟨by trivial, by omega⟩

theorem growCellIter_Captured (t : Team) (k : Nat) : ∀ (tn n : Nat),
    growCellIter (.Captured t n) tn k = .Captured t (n + ((tn + k) / 32 - tn / 32)) := by
  induction k with
  | zero => intro tn n; simp [growCellIter]
  | succ k ih =>
      intro tn n
      show growCellIter (growCell ((tn + 1) % 2 == 0) ((tn + 1) % 32 == 0) (.Captured t n)) (tn + 1) k = _
      by_cases h32 : (tn + 1) % 32 = 0
      · have h2 : (tn + 1) % 2 = 0 := by omega
        simp only [growCell, h32, h2, beq_self_eq_true, if_true, ih]
        simp only [Cell.Captured.injEq]
        exact ⟨by trivial, by omega⟩
      · have hb : ((tn + 1) % 32 == 0) = false := by simp [h32]
        simp only [growCell, hb, Bool.false_eq_true, if_false, ih]
        simp only [Cell.Captured.injEq]
        exact ⟨by trivial, by omega⟩

theorem growCellIter_Fortress_some (o : Team) (k : Nat) : ∀ (tn n : Nat),
    growCellIter (.Fortress (some o) n) tn k
      = .Fortress (some o) (n + ((tn + k) / 2 - tn / 2)) := by
  induction k with
  | zero => intro tn n; simp [growCellIter]
  | succ k ih =>
      intro tn n
      show growCellIter
          (growCell ((tn + 1) % 2 == 0) ((tn + 1) % 32 == 0) (.Fortress (some o) n)) (tn + 1) k = _
      by_cases h2 : (tn + 1) % 2 = 0
      · simp only [growCell, h2, beq_self_eq_true, if_true, ih]
        simp only [Cell.Fortress.injEq]
        exact ⟨by trivial, by omega⟩
      · have hb : ((tn + 1) % 2 == 0) = false := by simp [h2]
        simp only [growCell, hb, Bool.false_eq_true, if_false, ih]
        simp only [Cell.Fortress.injEq]
        exact ⟨by trivial, by omega⟩

theorem growCellIter_Fortress_none (k : Nat) : ∀ (tn n : Nat),
    growCellIter (.Fortress none n) tn k = .Fortress none n := by
  induction k with
  | zero => intro tn n; simp [growCellIter]
  | succ k ih =>
      intro tn n
      show growCellIter
          (growCell ((tn + 1) % 2 == 0) ((tn + 1) % 32 == 0) (.Fortress none n)) (tn + 1) k = _
      simp only [growCell, ih]

theorem growCellIter_Mountain (k : Nat) : ∀ tn : Nat,
    growCellIter .Mountain tn k = .Mountain := by
  induction k with
  | zero => intro tn; simp [growCellIter]
  | succ k ih =>
      intro tn
      show growCellIter (growCell ((tn + 1) % 2 == 0) ((tn + 1) % 32 == 0) .Mountain) (tn + 1) k = _
      simp only [growCell, ih]

theorem growCellIter_Open (k : Nat) : ∀ tn : Nat,
    growCellIter .Open tn k = .Open := by
  induction k with
  | zero => intro tn; simp [growCellIter]
  | succ k ih =>
      intro tn
      show growCellIter (growCell ((tn + 1) % 2 == 0) ((tn + 1) % 32 == 0) .Open) (tn + 1) k = _
      simp only [growCell, ih]

/-! Claim theorems about the growth phase and the cell unit accessors. -/

/-- C2: in the growth phase of `tick` at (incremented) tick counter `tn`,
King cells and Fortress cells with a `Some` owner gain exactly 1 unit
exactly when `tn` is even; Captured cells gain exactly 1 unit exactly when
`tn` is divisible by 32; Fortress cells with owner `none`, Mountain and Open
cells never change.  Consequently, over any 32 consecutive ticks a King cell
gains exactly 16 units and a Captured cell gains exactly 1 unit. -/
theorem C2_growth_schedule (tn : Nat) (b : Board) (x y : Int) :
    (∀ t n, b.getCell x y = some (.King t n) →
        (growBoard tn b).getCell x y = some (.King t (if tn % 2 = 0 then n + 1 else n)))
  ∧ (∀ o n, b.getCell x y = some (.Fortress (some o) n) →
        (growBoard tn b).getCell x y
          = some (.Fortress (some o) (if tn % 2 = 0 then n + 1 else n)))
  ∧ (∀ t n, b.getCell x y = some (.Captured t n) →
        (growBoard tn b).getCell x y = some (.Captured t (if tn % 32 = 0 then n + 1 else n)))
  ∧ (∀ n, b.getCell x y = some (.Fortress none n) →
        (growBoard tn b).getCell x y = some (.Fortress none n))
  ∧ (b.getCell x y = some .Mountain → (growBoard tn b).getCell x y = some .Mountain)
  ∧ (b.getCell x y = some .Open → (growBoard tn b).getCell x y = some .Open)
  ∧ (∀ t n, b.getCell x y = some (.King t n) →
        (growIter b tn 32).getCell x y = some (.King t (n + 16)))
  ∧ (∀ t n, b.getCell x y = some (.Captured t n) →
        (growIter b tn 32).getCell x y = some (.Captured t (n + 1))) := by
  refine ⟨?_, ?_, ?_, ?_, ?_, ?_, ?_, ?_⟩
  · intro t n h
    rw [getCell_growBoard, h]
    by_cases h2 : tn % 2 = 0
    · simp [growCell, h2]
    · have hb : (tn % 2 == 0) = false := by simp [h2]
      simp [growCell, hb, h2]
  · intro o n h
    rw [getCell_growBoard, h]
    by_cases h2 : tn % 2 = 0
    · simp [growCell, h2]
    · have hb : (tn % 2 == 0) = false := by simp [h2]
      simp [growCell, hb, h2]
  · intro t n h
    rw [getCell_growBoard, h]
    by_cases h32 : tn % 32 = 0
    · have h2 : tn % 2 = 0 := by omega
      simp [growCell, h32, h2]
    · have hb : (tn % 32 == 0) = false := by simp [h32]
      simp [growCell, hb, h32]
  · intro n h
    rw [getCell_growBoard, h]
    simp [growCell]
  · intro h
    rw [getCell_growBoard, h]
    simp [growCell]
  · intro h
    rw [getCell_growBoard, h]
    simp [growCell]
  · intro t n h
    rw [getCell_growIter, h]
    show some (growCellIter (.King t n) tn 32) = _
    rw [growCellIter_King]
    simp only [Option.some.injEq, Cell.King.injEq]
    exact ⟨by trivial, by omega⟩
  · intro t n h
    rw [getCell_growIter, h]
    show some (growCellIter (.Captured t n) tn 32) = _
    rw [growCellIter_Captured]
    simp only [Option.some.injEq, Cell.Captured.injEq]
    exact ⟨by trivial, by omega⟩

/-- A small concrete board exercising every cell kind, for the C2 witness. -/
def c2Board : Board :=
  ⟨[[.King 0 1, .Captured 2 3, .Fortress (some 1) 4],
    [.Fortress none 5, .Mountain, .Open]]⟩

theorem C2_growth_schedule_witness :
    (growBoard 2 c2Board).getCell 0 0 = some (.King 0 2)
  ∧ (growBoard 2 c2Board).getCell 1 0 = some (.Captured 2 3)
  ∧ (growBoard 32 c2Board).getCell 1 0 = some (.Captured 2 4)
  ∧ (growBoard 2 c2Board).getCell 2 0 = some (.Fortress (some 1) 5)
  ∧ (growBoard 2 c2Board).getCell 0 1 = some (.Fortress none 5)
  ∧ (growBoard 2 c2Board).getCell 1 1 = some .Mountain
  ∧ (growIter c2Board 7 32).getCell 0 0 = some (.King 0 17)
  ∧ (growIter c2Board 7 32).getCell 1 0 = some (.Captured 2 4) := by
  refine ⟨?_, ?_, ?_, ?_, ?_, ?_, ?_, ?_⟩
  · simpa using (C2_growth_schedule 2 c2Board 0 0).1 0 1 (by decide)
  · simpa using (C2_growth_schedule 2 c2Board 1 0).2.2.1 2 3 (by decide)
  · simpa using (C2_growth_schedule 32 c2Board 1 0).2.2.1 2 3 (by decide)
  · simpa using (C2_growth_schedule 2 c2Board 2 0).2.1 1 4 (by decide)
  · simpa using (C2_growth_schedule 2 c2Board 0 1).2.2.2.1 5 (by decide)
  · simpa using (C2_growth_schedule 2 c2Board 1 1).2.2.2.2.1 (by decide)
  · simpa using (C2_growth_schedule 7 c2Board 0 0).2.2.2.2.2.2.1 0 1 (by decide)
  · simpa using (C2_growth_schedule 7 c2Board 1 0).2.2.2.2.2.2.2 2 3 (by decide)

/-- C7: for every Fortress, King or Captured cell with unit count `n ≥ 1`,
`take_units` returns `n - 1` and leaves the cell with count exactly 1, with
the cell's kind and owner unchanged. -/
theorem C7_take_units (n : Nat) (hn : 1 ≤ n) :
    (∀ o : Option Team, (Cell.Fortress o n).take_units = some (n - 1, .Fortress o 1))
  ∧ (∀ t : Team, (Cell.King t n).take_units = some (n - 1, .King t 1))
  ∧ (∀ t : Team, (Cell.Captured t n).take_units = some (n - 1, .Captured t 1)) := by
  have hne : n ≠ 0 := by omega
  exact ⟨fun o => by simp [Cell.take_units, hne],
         fun t => by simp [Cell.take_units, hne],
         fun t => by simp [Cell.take_units, hne]⟩

theorem C7_take_units_witness :
    (Cell.Fortress (some 3) 5).take_units = some (4, .Fortress (some 3) 1)
  ∧ (Cell.King 2 5).take_units = some (4, .King 2 1)
  ∧ (Cell.Captured 1 5).take_units = some (4, .Captured 1 1) := by
  obtain ⟨h1, h2, h3⟩ := C7_take_units 5 (by omega)
  exact ⟨h1 (some 3), h2 2, h3 1⟩

/-- C8 counterexample: the claim quantifies over every unit count, but at
count 0 the source's `take_units` computes the `usize` underflow `0 - 1`
(an abort in checked builds, modelled as `none`), so the take-then-give
round trip does not restore the cell — it does not produce a cell at all. -/
theorem C8_roundtrip_counterexample :
    (Cell.Captured 0 0).take_then_give = none := rfl

/-- C8 (amended): for every Fortress, King or Captured cell with unit count
`n ≥ 1`, `take_units` followed immediately by `give_units` of the returned
amount restores the cell to exactly its original count, kind and owner. -/
theorem C8_take_give_roundtrip (n : Nat) (hn : 1 ≤ n) :
    (∀ o : Option Team, (Cell.Fortress o n).take_then_give = some (.Fortress o n))
  ∧ (∀ t : Team, (Cell.King t n).take_then_give = some (.King t n))
  ∧ (∀ t : Team, (Cell.Captured t n).take_then_give = some (.Captured t n)) := by
  have hne : n ≠ 0 := by omega
  refine ⟨fun o => ?_, fun t => ?_, fun t => ?_⟩
  · have ht : (Cell.Fortress o n).take_units = some (n - 1, .Fortress o 1) := by
      simp [Cell.take_units, hne]
    unfold Cell.take_then_give
    rw [ht]
    exact give_units_take_units ht
  · have ht : (Cell.King t n).take_units = some (n - 1, .King t 1) := by
      simp [Cell.take_units, hne]
    unfold Cell.take_then_give
    rw [ht]
    exact give_units_take_units ht
  · have ht : (Cell.Captured t n).take_units = some (n - 1, .Captured t 1) := by
      simp [Cell.take_units, hne]
    unfold Cell.take_then_give
    rw [ht]
    exact give_units_take_units ht

theorem C8_take_give_roundtrip_witness :
    (Cell.Fortress none 7).take_then_give = some (.Fortress none 7)
  ∧ (Cell.King 0 7).take_then_give = some (.King 0 7)
  ∧ (Cell.Captured 4 7).take_then_give = some (.Captured 4 7) := by
  obtain ⟨h1, h2, h3⟩ := C8_take_give_roundtrip 7 (by omega)
  exact ⟨h1 none, h2 0, h3 4⟩

/-! Claim theorems about move resolution. -/

/-- C1: a move carrying `u > 0` units resolved against a Captured cell or a
Fortress owned by a different team, or a neutral Fortress, compares strength
with the defender count `n`: if `n ≥ u` the target keeps its owner and its
count becomes `n - u` (so a tie leaves ownership unchanged at count 0), and
if `u > n` the target's owner becomes the mover's team and its count becomes
`u - n`, the cell kind being preserved in all cases. -/
theorem C1_strength_contest (board : Board) (x y : Int) (dir : Direction)
    (rest : List Move) (dead : Bool) (team : Team) (src : Cell) (u : Nat) (src1 : Cell)
    (hsrc : board.getCell x y = some src)
    (htake : src.take_units = some (u, src1))
    (hu : u ≠ 0) :
    (∀ t n, board.getCell (x + dir.to_xy.1) (y + dir.to_xy.2) = some (.Captured t n) →
      t ≠ team →
      resolvePlayer board ⟨(⟨x, y⟩, dir) :: rest, dead, team⟩ =
        some ((board.setCell x y src1).setCell (x + dir.to_xy.1) (y + dir.to_xy.2)
                (if u ≤ n then .Captured t (n - u) else .Captured team (u - n)),
              ⟨rest, dead, team⟩, false) ∧
      ((board.setCell x y src1).setCell (x + dir.to_xy.1) (y + dir.to_xy.2)
          (if u ≤ n then .Captured t (n - u) else .Captured team (u - n))).getCell
          (x + dir.to_xy.1) (y + dir.to_xy.2)
        = some (if u ≤ n then .Captured t (n - u) else .Captured team (u - n)))
  ∧ (∀ t n, board.getCell (x + dir.to_xy.1) (y + dir.to_xy.2) = some (.Fortress (some t) n) →
      t ≠ team →
      resolvePlayer board ⟨(⟨x, y⟩, dir) :: rest, dead, team⟩ =
        some ((board.setCell x y src1).setCell (x + dir.to_xy.1) (y + dir.to_xy.2)
                (if u ≤ n then .Fortress (some t) (n - u) else .Fortress (some team) (u - n)),
              ⟨rest, dead, team⟩, false) ∧
      ((board.setCell x y src1).setCell (x + dir.to_xy.1) (y + dir.to_xy.2)
          (if u ≤ n then .Fortress (some t) (n - u) else .Fortress (some team) (u - n))).getCell
          (x + dir.to_xy.1) (y + dir.to_xy.2)
        = some (if u ≤ n then .Fortress (some t) (n - u) else .Fortress (some team) (u - n)))
  ∧ (∀ n, board.getCell (x + dir.to_xy.1) (y + dir.to_xy.2) = some (.Fortress none n) →
      resolvePlayer board ⟨(⟨x, y⟩, dir) :: rest, dead, team⟩ =
        some ((board.setCell x y src1).setCell (x + dir.to_xy.1) (y + dir.to_xy.2)
                (if u ≤ n then .Fortress none (n - u) else .Fortress (some team) (u - n)),
              ⟨rest, dead, team⟩, false) ∧
      ((board.setCell x y src1).setCell (x + dir.to_xy.1) (y + dir.to_xy.2)
          (if u ≤ n then .Fortress none (n - u) else .Fortress (some team) (u - n))).getCell
          (x + dir.to_xy.1) (y + dir.to_xy.2)
        = some (if u ≤ n then .Fortress none (n - u) else .Fortress (some team) (u - n))) := by
  have hne2 : x ≠ x + dir.to_xy.1 ∨ y ≠ y + dir.to_xy.2 :=
    (to_xy_moves dir x y).imp Ne.symm Ne.symm
  refine ⟨fun t n htgt hne => ?_, fun t n htgt hne => ?_, fun n htgt => ?_⟩
  · have htgt1 : (board.setCell x y src1).getCell (x + dir.to_xy.1) (y + dir.to_xy.2)
        = some (.Captured t n) := by rw [getCell_setCell_ne hne2]; exact htgt
    have hbe : (team == t) = false := by simp [Ne.symm hne]
    refine ⟨?_, getCell_setCell_self htgt1⟩
    simp [resolvePlayer, hsrc, htake, hu, htgt1, Cell.is_controlled_by, hbe]
  · have htgt1 : (board.setCell x y src1).getCell (x + dir.to_xy.1) (y + dir.to_xy.2)
        = some (.Fortress (some t) n) := by rw [getCell_setCell_ne hne2]; exact htgt
    have hbe : (team == t) = false := by simp [Ne.symm hne]
    refine ⟨?_, getCell_setCell_self htgt1⟩
    simp [resolvePlayer, hsrc, htake, hu, htgt1, Cell.is_controlled_by, hbe]
  · have htgt1 : (board.setCell x y src1).getCell (x + dir.to_xy.1) (y + dir.to_xy.2)
        = some (.Fortress none n) := by rw [getCell_setCell_ne hne2]; exact htgt
    refine ⟨?_, getCell_setCell_self htgt1⟩
    simp [resolvePlayer, hsrc, htake, hu, htgt1, Cell.is_controlled_by]

theorem C1_strength_contest_witness :
    resolvePlayer (⟨[[.Captured 1 11, .Captured 0 8]]⟩ : Board)
        ⟨[(⟨0, 0⟩, .Right)], false, 1⟩ =
      some (⟨[[.Captured 1 1, .Captured 1 2]]⟩, ⟨[], false, 1⟩, false)
  ∧ resolvePlayer (⟨[[.Captured 1 6, .Captured 0 8]]⟩ : Board)
        ⟨[(⟨0, 0⟩, .Right)], false, 1⟩ =
      some (⟨[[.Captured 1 1, .Captured 0 3]]⟩, ⟨[], false, 1⟩, false) := by
  constructor
  · have h := ((C1_strength_contest (⟨[[.Captured 1 11, .Captured 0 8]]⟩ : Board) 0 0 .Right []
      false 1 (.Captured 1 11) 10 (.Captured 1 1) (by decide) (by decide) (by decide)).1 0 8
      (by decide) (by decide)).1
    exact h.trans (by decide)
  · have h := ((C1_strength_contest (⟨[[.Captured 1 6, .Captured 0 8]]⟩ : Board) 0 0 .Right []
      false 1 (.Captured 1 6) 5 (.Captured 1 1) (by decide) (by decide) (by decide)).1 0 8
      (by decide) (by decide)).1
    exact h.trans (by decide)

/-- Writing back the cell a board already holds changes nothing. -/
theorem setCell_self {b : Board} {x y : Int} {c : Cell}
    (h : b.getCell x y = some c) : b.setCell x y c = b := by
  unfold Board.getCell Board.setCell at *
  by_cases hxy : 0 ≤ x ∧ 0 ≤ y
  · rw [if_pos hxy] at h ⊢
    cases hrow : b.cells[y.toNat]? with
    | none => simp [hrow] at h
    | some row =>
        rw [hrow] at h
        replace h : row[x.toNat]? = some c := h
        show (⟨b.cells.set y.toNat (row.set x.toNat c)⟩ : Board) = b
        rw [list_set_self row x.toNat c h, list_set_self b.cells y.toNat row hrow]
  · rw [if_neg hxy] at h; exact absurd h (by simp)

/-- The Mountain branch of the resolution loop: the player's queue is
cleared, the in-flight units are handed back to the source cell, and the
`break` flag is raised. -/
theorem resolvePlayer_mountain {board : Board} {x y : Int} {dir : Direction}
    {rest : List Move} {dead : Bool} {team : Team} {src : Cell} {u : Nat}
    {src1 src2 : Cell}
    (hsrc : board.getCell x y = some src)
    (htake : src.take_units = some (u, src1))
    (hu : u ≠ 0)
    (htgt : board.getCell (x + dir.to_xy.1) (y + dir.to_xy.2) = some .Mountain)
    (hgive : src1.give_units u = some src2) :
    resolvePlayer board ⟨(⟨x, y⟩, dir) :: rest, dead, team⟩ =
      some ((board.setCell x y src1).setCell x y src2, ⟨[], dead, team⟩, true) := by
  have hne2 : x ≠ x + dir.to_xy.1 ∨ y ≠ y + dir.to_xy.2 :=
    (to_xy_moves dir x y).imp Ne.symm Ne.symm
  have htgt1 : (board.setCell x y src1).getCell (x + dir.to_xy.1) (y + dir.to_xy.2)
      = some .Mountain := by rw [getCell_setCell_ne hne2]; exact htgt
  have hself : (board.setCell x y src1).getCell x y = some src1 := getCell_setCell_self hsrc
  simp [resolvePlayer, hsrc, htake, hu, htgt1, Cell.is_controlled_by, hself, hgive]

/-- C5: a move of `u > 0` units into a Mountain cell clears the moving
player's whole queue, returns all in-flight units to the source cell (whose
final content is exactly the original cell `src`), leaves the Mountain cell
unchanged, and raises the loop's `break` flag. -/
theorem C5_mountain_bump (board : Board) (x y : Int) (dir : Direction)
    (rest : List Move) (dead : Bool) (team : Team) (src : Cell) (u : Nat)
    (src1 src2 : Cell)
    (hsrc : board.getCell x y = some src)
    (htake : src.take_units = some (u, src1))
    (hu : u ≠ 0)
    (htgt : board.getCell (x + dir.to_xy.1) (y + dir.to_xy.2) = some .Mountain)
    (hgive : src1.give_units u = some src2) :
    resolvePlayer board ⟨(⟨x, y⟩, dir) :: rest, dead, team⟩ =
      some ((board.setCell x y src1).setCell x y src2, ⟨[], dead, team⟩, true)
  ∧ src2 = src
  ∧ ((board.setCell x y src1).setCell x y src2).getCell x y = some src
  ∧ ((board.setCell x y src1).setCell x y src2).getCell
      (x + dir.to_xy.1) (y + dir.to_xy.2) = some .Mountain := by
  have hrestore : src1.give_units u = some src := give_units_take_units htake
  have hs2 : src2 = src := by
    have := hgive.symm.trans hrestore
    exact (Option.some.injEq _ _ ▸ this)
  have hne2 : x ≠ x + dir.to_xy.1 ∨ y ≠ y + dir.to_xy.2 :=
    (to_xy_moves dir x y).imp Ne.symm Ne.symm
  have hself : (board.setCell x y src1).getCell x y = some src1 := getCell_setCell_self hsrc
  refine ⟨resolvePlayer_mountain hsrc htake hu htgt hgive, hs2, ?_, ?_⟩
  · rw [hs2]
    exact getCell_setCell_self hself
  · rw [getCell_setCell_ne hne2, getCell_setCell_ne hne2]
    exact htgt

theorem C5_mountain_bump_witness :
    resolvePlayer (⟨[[.Captured 0 5, .Mountain]]⟩ : Board) ⟨[(⟨0, 0⟩, .Right)], false, 0⟩ =
      some (⟨[[.Captured 0 5, .Mountain]]⟩, ⟨[], false, 0⟩, true) := by
  have h := (C5_mountain_bump (⟨[[.Captured 0 5, .Mountain]]⟩ : Board) 0 0 .Right [] false 0
    (.Captured 0 5) 4 (.Captured 0 1) (.Captured 0 5) (by decide) (by decide) (by decide)
    (by decide) (by decide)).1
  exact h.trans (by decide)

/-- C6: when the popped move's source cell holds exactly 1 unit
(`take_units` returns 0), the player's whole queue is cleared and the board
is completely unchanged — the source keeps its single unit and the target
cell is never touched. -/
theorem C6_empty_army_abort (board : Board) (x y : Int) (dir : Direction)
    (rest : List Move) (dead : Bool) (team : Team) (src src1 : Cell)
    (hsrc : board.getCell x y = some src)
    (htake : src.take_units = some (0, src1)) :
    resolvePlayer board ⟨(⟨x, y⟩, dir) :: rest, dead, team⟩ =
      some (board, ⟨[], dead, team⟩, false)
  ∧ src1 = src
  ∧ src.unitCount = some 1 := by
  obtain ⟨hss, hcount⟩ := take_units_zero htake
  have hb : board.setCell x y src1 = board := by rw [hss]; exact setCell_self hsrc
  refine ⟨?_, hss, hcount⟩
  simp [resolvePlayer, hsrc, htake, hb]

theorem C6_empty_army_abort_witness :
    resolvePlayer (⟨[[.Captured 0 1, .Open]]⟩ : Board)
        ⟨[(⟨0, 0⟩, .Right), (⟨1, 0⟩, .Down)], false, 0⟩ =
      some (⟨[[.Captured 0 1, .Open]]⟩, ⟨[], false, 0⟩, false) :=
  (C6_empty_army_abort (⟨[[.Captured 0 1, .Open]]⟩ : Board) 0 0 .Right [(⟨1, 0⟩, .Down)]
    false 0 (.Captured 0 1) (.Captured 0 1) (by decide) (by decide)).1

/-- C3 counterexample: a King can stand at count 0 (after a tie), and the
claim as stated then promises a `Fortress(Some(mover), u - (n - 1))`
outcome; instead the source's `units -= *n - 1` underflows `usize`
(an abort, modelled as `none`), so resolution produces no cell at all. -/
theorem C3_king_attack_counterexample :
    resolvePlayer (⟨[[.Captured 1 2, .King 0 0]]⟩ : Board)
      ⟨[(⟨0, 0⟩, .Right)], false, 1⟩ = none := by decide

/-- C3 (amended): a move of `u > 0` units against another team's King with
count `n`: if `n ≥ u` the King keeps its owner and its count becomes
`n - u`; if `u > n` and `n ≥ 1` the King cell is replaced by
`Fortress(Some(mover_team), u - (n - 1))` (for `n = 0` the computation
`units -= n - 1` underflows and resolution aborts instead). -/
theorem C3_king_attack (board : Board) (x y : Int) (dir : Direction)
    (rest : List Move) (dead : Bool) (team : Team) (src : Cell) (u : Nat)
    (src1 : Cell) (t : Team) (n : Nat)
    (hsrc : board.getCell x y = some src)
    (htake : src.take_units = some (u, src1))
    (hu : u ≠ 0)
    (htgt : board.getCell (x + dir.to_xy.1) (y + dir.to_xy.2) = some (.King t n))
    (hne : t ≠ team) :
    (u ≤ n →
      resolvePlayer board ⟨(⟨x, y⟩, dir) :: rest, dead, team⟩ =
        some ((board.setCell x y src1).setCell (x + dir.to_xy.1) (y + dir.to_xy.2)
                (.King t (n - u)),
              ⟨rest, dead, team⟩, false) ∧
      ((board.setCell x y src1).setCell (x + dir.to_xy.1) (y + dir.to_xy.2)
          (.King t (n - u))).getCell (x + dir.to_xy.1) (y + dir.to_xy.2)
        = some (.King t (n - u)))
  ∧ (n < u → 1 ≤ n →
      resolvePlayer board ⟨(⟨x, y⟩, dir) :: rest, dead, team⟩ =
        some ((board.setCell x y src1).setCell (x + dir.to_xy.1) (y + dir.to_xy.2)
                (.Fortress (some team) (u - (n - 1))),
              ⟨rest, dead, team⟩, false) ∧
      ((board.setCell x y src1).setCell (x + dir.to_xy.1) (y + dir.to_xy.2)
          (.Fortress (some team) (u - (n - 1)))).getCell
          (x + dir.to_xy.1) (y + dir.to_xy.2)
        = some (.Fortress (some team) (u - (n - 1)))) := by
  have hne2 : x ≠ x + dir.to_xy.1 ∨ y ≠ y + dir.to_xy.2 :=
    (to_xy_moves dir x y).imp Ne.symm Ne.symm
  have htgt1 : (board.setCell x y src1).getCell (x + dir.to_xy.1) (y + dir.to_xy.2)
      = some (.King t n) := by rw [getCell_setCell_ne hne2]; exact htgt
  have hbe : (team == t) = false := by simp [Ne.symm hne]
  constructor
  · intro hle
    refine ⟨?_, getCell_setCell_self htgt1⟩
    simp [resolvePlayer, hsrc, htake, hu, htgt1, Cell.is_controlled_by, hbe, hle]
  · intro hlt h1
    have hnle : ¬(u ≤ n) := by omega
    have hn0 : ¬(n = 0) := by omega
    refine ⟨?_, getCell_setCell_self htgt1⟩
    simp [resolvePlayer, hsrc, htake, hu, htgt1, Cell.is_controlled_by, hbe, hnle, hn0]

theorem C3_king_attack_witness :
    resolvePlayer (⟨[[.Captured 1 11, .King 0 3]]⟩ : Board)
        ⟨[(⟨0, 0⟩, .Right)], false, 1⟩ =
      some (⟨[[.Captured 1 1, .Fortress (some 1) 8]]⟩, ⟨[], false, 1⟩, false)
  ∧ resolvePlayer (⟨[[.Captured 1 4, .King 0 5]]⟩ : Board)
        ⟨[(⟨0, 0⟩, .Right)], false, 1⟩ =
      some (⟨[[.Captured 1 1, .King 0 2]]⟩, ⟨[], false, 1⟩, false) := by
  constructor
  · have h := ((C3_king_attack (⟨[[.Captured 1 11, .King 0 3]]⟩ : Board) 0 0 .Right [] false 1
      (.Captured 1 11) 10 (.Captured 1 1) 0 3 (by decide) (by decide) (by decide)
      (by decide) (by decide)).2 (by omega) (by omega)).1
    exact h.trans (by decide)
  · have h := ((C3_king_attack (⟨[[.Captured 1 4, .King 0 5]]⟩ : Board) 0 0 .Right [] false 1
      (.Captured 1 4) 3 (.Captured 1 1) 0 5 (by decide) (by decide) (by decide)
      (by decide) (by decide)).1 (by omega)).1
    exact h.trans (by decide)

/-- Whatever one loop iteration does, the player's queue afterwards is the
tail of the old queue (exactly one move popped, the rest kept) or empty
(cleared by an abort rule); the `break` flag is only ever raised after a
pop, with the queue cleared. -/
theorem resolvePlayer_shape {board : Board} {ps : PlayerState} {b1 : Board}
    {ps1 : PlayerState} {brk : Bool}
    (h : resolvePlayer board ps = some (b1, ps1, brk)) :
    (ps1.moves = ps.moves.tail ∨ ps1.moves = [])
    ∧ (brk = true → ps1.moves = [] ∧ ps.moves ≠ []) := by
  cases hm : ps.moves with
  | nil =>
      unfold resolvePlayer at h
      rw [hm] at h
      simp only [Option.some.injEq, Prod.mk.injEq] at h
      obtain ⟨-, hB, hC⟩ := h
      subst hB
      subst hC
      simp [hm]
  | cons m rest =>
      obtain ⟨p, dir⟩ := m
      unfold resolvePlayer at h
      rw [hm] at h
      simp only at h
      repeat' split at h
      all_goals
        first
          | exact Option.noConfusion h
          | (injection h with h0
             injection h0 with hA h1
             injection h1 with hB hC
             subst hB
             subst hC
             refine ⟨?_, fun hbrk => ?_⟩
             · simp [hm]
             · first
                 | exact Bool.noConfusion hbrk
                 | simp [hm])

/-- C4 (amended): in one pass of the move-resolution loop, players are
processed in team-index order and each has exactly one move popped from the
front of its queue (the untouched remainder persisting) or its queue
cleared by the Mountain-bump or empty-army rules — except that when a
player's move resolves into a Mountain the loop breaks: that player's queue
is cleared and every later player is left completely untouched. -/
theorem C4_queue_discipline : ∀ (board : Board) (players : List PlayerState)
    (b' : Board) (players' : List PlayerState) (brk : Bool),
    resolveMoves board players = some (b', players', brk) →
    (brk = false →
      List.Forall₂ (fun p q : PlayerState => q.moves = p.moves.tail ∨ q.moves = [])
        players players')
  ∧ (brk = true →
      ∃ pre pre' pk pk' post,
        players = pre ++ pk :: post ∧ players' = pre' ++ pk' :: post ∧
        List.Forall₂ (fun p q : PlayerState => q.moves = p.moves.tail ∨ q.moves = [])
          pre pre' ∧
        pk.moves ≠ [] ∧ pk'.moves = []) := by
  intro board players
  induction players generalizing board with
  | nil =>
      intro b' players' brk h
      unfold resolveMoves at h
      simp only [Option.some.injEq, Prod.mk.injEq] at h
      obtain ⟨-, hB, hC⟩ := h
      subst hB
      subst hC
      exact ⟨fun _ => List.Forall₂.nil, fun hbrk => absurd hbrk (by simp)⟩
  | cons p rest ih =>
      intro b' players' brk h
      unfold resolveMoves at h
      split at h
      · exact absurd h (by simp)
      · rename_i b1 ps1 brk1 hp
        split at h
        · rename_i hbrk1
          simp only [Option.some.injEq, Prod.mk.injEq] at h
          obtain ⟨-, hB, hC⟩ := h
          subst hB
          subst hC
          obtain ⟨-, hshape⟩ := resolvePlayer_shape hp
          obtain ⟨h1, h2⟩ := hshape hbrk1
          refine ⟨fun hf => absurd hf (by simp), fun _ => ?_⟩
          exact ⟨[], [], p, ps1, rest, rfl, rfl, List.Forall₂.nil, h2, h1⟩
        · rename_i hbrk1
          split at h
          · exact absurd h (by simp)
          · rename_i b2 rest1 brk2 hrec
            simp only [Option.some.injEq, Prod.mk.injEq] at h
            obtain ⟨-, hB, hC⟩ := h
            subst hB
            subst hC
            obtain ⟨hshape, -⟩ := resolvePlayer_shape hp
            obtain ⟨ih1, ih2⟩ := ih b1 b2 rest1 brk2 hrec
            constructor
            · intro hf
              exact List.Forall₂.cons hshape (ih1 hf)
            · intro ht
              obtain ⟨pre, pre', pk, pk', post, e1, e2, hfa, hne, hnil⟩ := ih2 ht
              exact ⟨p :: pre, ps1 :: pre', pk, pk', post, by simp [e1], by simp [e2],
                List.Forall₂.cons hshape hfa, hne, hnil⟩

theorem C4_queue_discipline_witness :
    List.Forall₂ (fun p q : PlayerState => q.moves = p.moves.tail ∨ q.moves = [])
      [⟨[(⟨0, 0⟩, .Right)], false, 0⟩, ⟨[(⟨0, 1⟩, .Right)], false, 1⟩]
      [⟨[], false, 0⟩, ⟨[], false, 1⟩] :=
  (C4_queue_discipline ⟨[[.Captured 0 2, .Open], [.Captured 1 2, .Open]]⟩
    [⟨[(⟨0, 0⟩, .Right)], false, 0⟩, ⟨[(⟨0, 1⟩, .Right)], false, 1⟩]
    ⟨[[.Captured 0 1, .Captured 0 1], [.Captured 1 1, .Captured 1 1]]⟩
    [⟨[], false, 0⟩, ⟨[], false, 1⟩] false (by decide)).1 rfl

/-- C4 counterexample: player 0's move hits a Mountain, and the loop's
`break` then skips player 1 entirely — player 1's queue is non-empty but no
move of theirs is popped this tick, while the claim promises every player
with a non-empty queue exactly one popped move (which would have left
player 1's one-entry queue empty). -/
theorem C4_queue_discipline_counterexample :
    (GameState.tick ⟨⟨[[.Captured 0 5, .Mountain], [.Captured 1 5, .Open]]⟩, 0, 2,
        [⟨[(⟨0, 0⟩, .Right)], false, 0⟩, ⟨[(⟨0, 1⟩, .Right)], false, 1⟩], (2, 2)⟩).map
        (fun s => s.player_states.map PlayerState.moves)
      = some [[], [(⟨0, 1⟩, .Right)]]
  ∧ some [[], [(⟨0, 1⟩, .Right)]] ≠ some [([] : List Move), []] := by
  constructor
  · decide
  · decide

/-- C9: when the player after prefix `pre` resolves a move into a Mountain,
the loop stops for the whole tick: the bumping player's queue is cleared and
every later player (`post`) is left exactly as it was — no move popped, no
cell changed by them; their queued moves are delayed, not cleared. -/
theorem C9_mountain_stops_loop :
    ∀ (pre : List PlayerState) (board b1 : Board) (pre' : List PlayerState),
    resolveMoves board pre = some (b1, pre', false) →
    ∀ (x y : Int) (dir : Direction) (rest : List Move) (dead : Bool) (team : Team)
      (src : Cell) (u : Nat) (src1 src2 : Cell) (post : List PlayerState),
    b1.getCell x y = some src →
    src.take_units = some (u, src1) →
    u ≠ 0 →
    b1.getCell (x + dir.to_xy.1) (y + dir.to_xy.2) = some .Mountain →
    src1.give_units u = some src2 →
    resolveMoves board
        (pre ++ (⟨(⟨x, y⟩, dir) :: rest, dead, team⟩ : PlayerState) :: post) =
      some ((b1.setCell x y src1).setCell x y src2,
            pre' ++ (⟨[], dead, team⟩ : PlayerState) :: post, true) := by
  intro pre
  induction pre with
  | nil =>
      intro board b1 pre' h x y dir rest dead team src u src1 src2 post
        hsrc htake hu htgt hgive
      unfold resolveMoves at h
      injection h with h0
      injection h0 with hA h1
      injection h1 with hB hC
      subst hA
      subst hB
      show resolveMoves board (⟨(⟨x, y⟩, dir) :: rest, dead, team⟩ :: post) = _
      unfold resolveMoves
      rw [resolvePlayer_mountain hsrc htake hu htgt hgive]
      simp
  | cons q qs ih =>
      intro board b1 pre' h x y dir rest dead team src u src1 src2 post
        hsrc htake hu htgt hgive
      unfold resolveMoves at h
      split at h
      · exact Option.noConfusion h
      · rename_i bq q1 brkq hq
        split at h
        · injection h with h0
          injection h0 with hA h1
          injection h1 with hB hC
          exact Bool.noConfusion hC
        · rename_i hbrkq
          have hbf : brkq = false := by
            cases brkq
            · rfl
            · exact absurd rfl hbrkq
          subst hbf
          split at h
          · exact Option.noConfusion h
          · rename_i b2 rest1 brk2 hrec
            injection h with h0
            injection h0 with hA h1
            injection h1 with hB hC
            subst hA
            subst hC
            subst hB
            have ihr := ih bq b2 rest1 hrec x y dir rest dead team src u src1 src2 post
              hsrc htake hu htgt hgive
            show resolveMoves board
                (q :: (qs ++ (⟨(⟨x, y⟩, dir) :: rest, dead, team⟩ : PlayerState) :: post)) = _
            simp only [resolveMoves, hq, ihr]
            simp

theorem C9_mountain_stops_loop_witness :
    resolveMoves (⟨[[.Captured 0 2, .Open], [.Captured 1 5, .Mountain],
        [.Captured 2 3, .Open]]⟩ : Board)
      [⟨[(⟨0, 0⟩, .Right)], false, 0⟩, ⟨[(⟨0, 1⟩, .Right)], false, 1⟩,
       ⟨[(⟨0, 2⟩, .Right)], false, 2⟩] =
    some (((⟨[[.Captured 0 1, .Captured 0 1], [.Captured 1 5, .Mountain],
              [.Captured 2 3, .Open]]⟩ : Board).setCell 0 1 (.Captured 1 1)).setCell 0 1
            (.Captured 1 5),
          [⟨[], false, 0⟩, ⟨[], false, 1⟩, ⟨[(⟨0, 2⟩, .Right)], false, 2⟩], true) :=
  C9_mountain_stops_loop [⟨[(⟨0, 0⟩, .Right)], false, 0⟩]
    (⟨[[.Captured 0 2, .Open], [.Captured 1 5, .Mountain], [.Captured 2 3, .Open]]⟩ : Board)
    (⟨[[.Captured 0 1, .Captured 0 1], [.Captured 1 5, .Mountain],
       [.Captured 2 3, .Open]]⟩ : Board)
    [⟨[], false, 0⟩] (by decide) 0 1 .Right [] false 1 (.Captured 1 5) 4 (.Captured 1 1)
    (.Captured 1 5) [⟨[(⟨0, 2⟩, .Right)], false, 2⟩] (by decide) (by decide) (by decide)
    (by decide) (by decide)

/-- C10: a King's count can be driven to exactly 0 by a tie (first
conjunct); attacking such a King with `u ≥ 1` units reaches the
attacker-wins branch, whose `units -= *n - 1` underflows `usize` at `n = 0`
and aborts (second conjunct, the abort modelled as `none`); under the
unstated precondition `n ≥ 1` the branch is well-defined (third
conjunct). -/
theorem C10_king_underflow :
    (resolvePlayer (⟨[[.Captured 1 4, .King 0 3]]⟩ : Board)
        ⟨[(⟨0, 0⟩, .Right)], false, 1⟩).map (fun r => (r.1.getCell 1 0, r.2.2))
      = some (some (.King 0 0), false)
  ∧ resolvePlayer (⟨[[.Captured 1 2, .King 0 0]]⟩ : Board)
      ⟨[(⟨0, 0⟩, .Right)], false, 1⟩ = none
  ∧ (∀ (board : Board) (x y : Int) (dir : Direction) (rest : List Move)
       (dead : Bool) (team : Team) (src : Cell) (u : Nat) (src1 : Cell)
       (t : Team) (n : Nat),
      board.getCell x y = some src →
      src.take_units = some (u, src1) →
      u ≠ 0 →
      board.getCell (x + dir.to_xy.1) (y + dir.to_xy.2) = some (.King t n) →
      t ≠ team →
      1 ≤ n →
      resolvePlayer board ⟨(⟨x, y⟩, dir) :: rest, dead, team⟩ ≠ none) := by
  refine ⟨by decide, by decide, ?_⟩
  intro board x y dir rest dead team src u src1 t n hsrc htake hu htgt hne h1
  have hne2 : x ≠ x + dir.to_xy.1 ∨ y ≠ y + dir.to_xy.2 :=
    (to_xy_moves dir x y).imp Ne.symm Ne.symm
  have htgt1 : (board.setCell x y src1).getCell (x + dir.to_xy.1) (y + dir.to_xy.2)
      = some (.King t n) := by rw [getCell_setCell_ne hne2]; exact htgt
  have hbe : (team == t) = false := by simp [Ne.symm hne]
  by_cases hle : u ≤ n
  · simp [resolvePlayer, hsrc, htake, hu, htgt1, Cell.is_controlled_by, hbe, hle]
  · have hn0 : ¬(n = 0) := by omega
    simp [resolvePlayer, hsrc, htake, hu, htgt1, Cell.is_controlled_by, hbe, hle, hn0]

theorem C10_king_underflow_witness :
    resolvePlayer (⟨[[.Captured 1 11, .King 0 1]]⟩ : Board)
      ⟨[(⟨0, 0⟩, .Right)], false, 1⟩ ≠ none :=
  C10_king_underflow.2.2 (⟨[[.Captured 1 11, .King 0 1]]⟩ : Board) 0 0 .Right [] false 1
    (.Captured 1 11) 10 (.Captured 1 1) 0 1 (by decide) (by decide) (by decide)
    (by decide) (by decide) (by omega)

end Generals
